import Mathlib

/-!
Verification of the single-site utility-bill calculator (`ubc/calculator.py`)
against its natural-language specification.

Shallow embedding conventions:
* pandas `Series`/`DataFrame` objects become association lists; a missing value
  (`NaN`/`pd.NA`) becomes `Option.none`, and float arithmetic is modelled
  exactly over `ℚ` (NaN-propagation of `*` and `+` becomes `Option` propagation).
* timestamps are minutes since 1970-01-01 00:00 (load data in this domain is at
  15-minute or hourly granularity, so minute resolution is exact);
  calendar attributes (`month`, `hour`, `dayofweek`) are computed from that
  minute count with the standard Gregorian civil-calendar conversion.
* pandas resampling buckets (`15 min`, `H`, `D`) are anchored at midnight
  (pandas `origin="start_day"`), which for widths dividing a day coincides with
  epoch-aligned integer division of the minute count; `resample("M")` buckets
  by calendar month, and a monthly label is modelled by the number
  `year * 12 + (month - 1)` (pandas' month-end stamp determines and is
  determined by that pair).
* raising a Python exception is modelled with `Except`.
-/

deriving instance DecidableEq for Except

namespace UBC

/-- Timestamps: minutes since 1970-01-01 00:00 (day 0 of the pandas epoch, a Thursday). -/
abbrev Ts := Nat

/-- Days since the epoch (`1440` minutes per day). -/
def tsDay (t : Ts) : Nat := t / 1440

/-- pandas `.hour`: hour of day, `0…23`. -/
def tsHour (t : Ts) : Nat := t / 60 % 24

/-- pandas `.dayofweek`: Monday = 0 … Sunday = 6; day 0 (1970-01-01) was a Thursday (= 3). -/
def dayofweek (t : Ts) : Nat := (tsDay t + 3) % 7

/-- The load-side join key `~load.index.dayofweek.isin([5, 6])` (calculator.py line 31). -/
def isWeekday (t : Ts) : Bool := !(dayofweek t == 5 || dayofweek t == 6)

/-- Gregorian civil date `(year, month, day)` from a day count since 1970-01-01
(Howard Hinnant's `civil_from_days`, specialised to non-negative day counts so that
all divisions are on `ℕ`). -/
def civilFromDays (z : Nat) : Nat × Nat × Nat :=
  let z' := z + 719468
  let era := z' / 146097
  let doe := z' % 146097
  let yoe := (doe - doe / 1460 + doe / 36524 - doe / 146096) / 365
  let y := yoe + era * 400
  let doy := doe - (365 * yoe + yoe / 4 - yoe / 100)
  let mp := (5 * doy + 2) / 153
  let d := doy - (153 * mp + 2) / 5 + 1
  let m := if mp < 10 then mp + 3 else mp - 9
  (if m ≤ 2 then y + 1 else y, m, d)

/-- Calendar year of a day count. -/
def dayYear (d : Nat) : Nat := (civilFromDays d).1

/-- Calendar month (1…12) of a day count. -/
def dayMonth (d : Nat) : Nat := (civilFromDays d).2.1

/-- Monthly bucket label of a day count: `year * 12 + (month - 1)`.
Stands for the pandas month-end stamp produced by `resample("M")`. -/
def dayMonthKey (d : Nat) : Nat := dayYear d * 12 + (dayMonth d - 1)

/-- pandas `.month`: calendar month (1…12) of a timestamp. -/
def tsMonth (t : Ts) : Nat := dayMonth (tsDay t)

/-- Monthly bucket label of a timestamp. -/
def monthKey (t : Ts) : Nat := dayMonthKey (tsDay t)

/-- NaN-propagating multiplication (`NaN * x = NaN`). -/
def mulOpt : Option ℚ → Option ℚ → Option ℚ
  | some a, some b => some (a * b)
  | _, _ => none

/-- NaN-propagating addition (`NaN + x = NaN`), the plain `+` of two aligned series. -/
def addOpt : Option ℚ → Option ℚ → Option ℚ
  | some a, some b => some (a + b)
  | _, _ => none

/-- Maximum of a list of present values: pandas `max` with `skipna=True`
(`none` only when nothing is left after dropping NaNs). -/
def listMax? : List ℚ → Option ℚ
  | [] => none
  | x :: xs => some (xs.foldl max x)

/-- Mean of a bucket: `NaN` on an empty bucket. -/
def meanQ (l : List ℚ) : Option ℚ :=
  match l with
  | [] => none
  | _ => some (l.sum / (l.length : ℚ))

/-- Bucket labels produced by `resample` with a fixed width `w` (minutes): all buckets
from the one containing the first stamp to the one containing the last stamp. -/
def bucketRange (w : Nat) (ts : List Ts) : List Nat :=
  match ts.head?, ts.getLast? with
  | some a, some b => List.range' (a / w) (b / w - a / w + 1)
  | _, _ => []

/-- Monthly bucket labels of `resample("M")`: every month from the first stamp's month
to the last stamp's month. -/
def monthRange (ts : List Ts) : List Nat :=
  match ts.head?, ts.getLast? with
  | some a, some b => List.range' (monthKey a) (monthKey b - monthKey a + 1)
  | _, _ => []

/-- `load.resample(f"{w} min").mean()`: one row per bucket in range, labelled by the
bucket start, holding the mean of the samples falling in the bucket (NaN if none). -/
def resampleMean (w : Nat) (s : List (Ts × ℚ)) : List (Ts × Option ℚ) :=
  (bucketRange w (s.map Prod.fst)).map
    (fun b => (b * w, meanQ ((s.filter (fun p => p.1 / w == b)).map Prod.snd)))

/-- Forward fill with the last seen value (`prev` = value before the list starts). -/
def ffillAux (prev : Option ℚ) : List (Ts × Option ℚ) → List (Ts × Option ℚ)
  | [] => []
  | (t, v) :: rest =>
    match v with
    | some x => (t, some x) :: ffillAux (some x) rest
    | none => (t, prev) :: ffillAux prev rest

/-- `fillna(method="pad")`. -/
def ffill (s : List (Ts × Option ℚ)) : List (Ts × Option ℚ) := ffillAux none s

/-- `resample(...).max()` over a series with possibly-missing values: per bucket in
range, the `skipna` maximum of the present values. -/
def resampleMaxOpt (w : Nat) (s : List (Ts × Option ℚ)) : List (Ts × Option ℚ) :=
  (bucketRange w (s.map Prod.fst)).map
    (fun b => (b * w, listMax? ((s.filter (fun p => p.1 / w == b)).filterMap Prod.snd)))

/-- `resample("M").max()`: per month in range, the `skipna` maximum. -/
def resampleMonthMax (s : List (Ts × Option ℚ)) : List (Nat × Option ℚ) :=
  (monthRange (s.map Prod.fst)).map
    (fun m => (m, listMax? ((s.filter (fun p => monthKey p.1 == m)).filterMap Prod.snd)))

/-- `resample("M").sum()`: per month in range, the `skipna` sum (`0` if nothing present,
pandas `min_count=0`), hence always a defined number. -/
def resampleMonthSum (s : List (Ts × Option ℚ)) : List (Nat × Option ℚ) :=
  (monthRange (s.map Prod.fst)).map
    (fun m => (m, some (((s.filter (fun p => monthKey p.1 == m)).filterMap Prod.snd).sum)))

/-- Insert into a list sorted by `key`, after existing equal keys. -/
def insertBy {α : Type} (key : α → Nat) (x : α) : List α → List α
  | [] => [x]
  | y :: ys => if key y ≤ key x then y :: insertBy key x ys else x :: y :: ys

/-- `sort_index()`: sort by `key` (insertion sort; the claims below are stated so that
they do not depend on the order among rows with equal index labels). -/
def sortBy {α : Type} (key : α → Nat) : List α → List α
  | [] => []
  | x :: xs => insertBy key x (sortBy key xs)

/-- One row of the schedule's `energy` table (`_parse_tou_schedule`): columns
`is_weekday`, `month` (1…12), `hour` (0…23), `schedule_id`, `rate` ($/kWh).
The calculator reads only the three key columns and `rate`. -/
structure EnergyRow where
  is_weekday : Bool
  month : Nat
  hour : Nat
  schedule_id : Nat
  rate : ℚ
deriving DecidableEq

/-- One row of the schedule's `demand` table: same shape as the energy table,
rate in $/kW. -/
structure DemandRow where
  is_weekday : Bool
  month : Nat
  hour : Nat
  schedule_id : Nat
  rate : ℚ
deriving DecidableEq

/-- One row of the schedule's `flatdemand` table: columns `month` (1…12),
`schedule_id`, `rate` ($/kW). -/
structure FlatRow where
  month : Nat
  schedule_id : Nat
  rate : ℚ
deriving DecidableEq

/-- The rate schedule handed to `SingleSite`: the four tables plus the meter-charge
unit and value (`meter_charge_unit` / `meter` accessors). -/
structure Sched where
  energy : List EnergyRow
  demand : List DemandRow
  flatdemand : List FlatRow
  meter_charge_unit : String
  meter : ℚ

/-- Python exceptions that the calculator can let escape. -/
inductive PyErr where
  | valueError
  | indexError
  | attributeError
  | unknownRateStructure (msg : String)
deriving DecidableEq

/-- Whether an energy row's `(is_weekday, month, hour)` key equals the calendar key
derived from timestamp `t` (the merge condition of calculator.py lines 38-42). -/
def energyKeyMatch (t : Ts) (r : EnergyRow) : Bool :=
  r.is_weekday == isWeekday t && r.month == tsMonth t && r.hour == tsHour t

/-- All schedule rows matching a load timestamp. -/
def energyMatches (sched : List EnergyRow) (t : Ts) : List EnergyRow :=
  sched.filter (energyKeyMatch t)

/-- `schedule.energy.merge(load, left_on=key-cols, right_on=key-arrays, how="right")`:
every load row appears; with k > 0 matching schedule rows it fans out into k rows,
with none it appears once with `rate = NaN`. Output rows: (timestamp, kWh, rate). -/
def mergeRightEnergy (sched : List EnergyRow) (load : List (Ts × ℚ)) :
    List (Ts × ℚ × Option ℚ) :=
  load.flatMap (fun p =>
    match energyMatches sched p.1 with
    | [] => [(p.1, p.2, none)]
    | ms => ms.map (fun r => (p.1, p.2, some r.rate)))

/-- One row of the frame returned by `calculate_energy_charges`:
columns (timestamp index, kWh, kWh_rate, cost). -/
structure ERow where
  ts : Ts
  kWh : ℚ
  kWh_rate : Option ℚ
  cost : Option ℚ
deriving DecidableEq

/-- `SingleSite.calculate_energy_charges` (calculator.py lines 21-47): right-merge the
energy table onto the load, add `cost = kWh * rate`, set the timestamp index and sort.
(The `rename`/`rename_axis` calls only fix column labels, which are implicit here;
their mutation behaviour is modelled separately by `calculate_energy_charges_st`.) -/
def calculate_energy_charges (sched : List EnergyRow) (load : List (Ts × ℚ)) :
    List ERow :=
  sortBy ERow.ts ((mergeRightEnergy sched load).map
    (fun r => ⟨r.1, r.2.1, r.2.2, mulOpt (some r.2.1) r.2.2⟩))

/-- Demand-table key match, as for energy. -/
def demandKeyMatch (t : Ts) (r : DemandRow) : Bool :=
  r.is_weekday == isWeekday t && r.month == tsMonth t && r.hour == tsHour t

/-- All demand rows matching a load timestamp. -/
def demandMatches (sched : List DemandRow) (t : Ts) : List DemandRow :=
  sched.filter (demandKeyMatch t)

/-- calculator.py line 59: `load.resample("15 min").mean().fillna(method="pad").resample("H").max()` —
the series that `calculate_demand_charges` joins against the demand table. -/
def demandResample (load : List (Ts × ℚ)) : List (Ts × Option ℚ) :=
  resampleMaxOpt 60 (ffill (resampleMean 15 load))

/-- The right-merge of the demand table onto the resampled load:
rows (timestamp, kW, rate, schedule_id), with rate and schedule_id NaN when unmatched. -/
def mergeRightDemand (sched : List DemandRow) (s : List (Ts × Option ℚ)) :
    List (Ts × Option ℚ × Option ℚ × Option Nat) :=
  s.flatMap (fun p =>
    match demandMatches sched p.1 with
    | [] => [(p.1, p.2, none, none)]
    | ms => ms.map (fun r => (p.1, p.2, some r.rate, some r.schedule_id)))

/-- One row of the demand frame before pivoting:
columns (timestamp index, kW, kW_rate, schedule_id, cost). -/
structure DRow where
  ts : Ts
  kW : Option ℚ
  kW_rate : Option ℚ
  schedule_id : Option Nat
  cost : Option ℚ
deriving DecidableEq

/-- calculator.py lines 71-85: merge, the `demand_rates.empty` fixup
(`schedule_id` filled with 0, `rate` set to NA), `cost = kW * rate`, index + sort. -/
def demandRows (sched : List DemandRow) (load : List (Ts × ℚ)) : List DRow :=
  let joined := mergeRightDemand sched (demandResample load)
  let fixed := if sched.isEmpty
    then joined.map (fun r => (r.1, r.2.1, (none : Option ℚ), (some 0 : Option Nat)))
    else joined
  sortBy DRow.ts (fixed.map
    (fun r => ⟨r.1, r.2.1, r.2.2.1, r.2.2.2, mulOpt r.2.1 r.2.2.1⟩))

/-- Column labels of `pivot(columns="schedule_id", ...)`: the distinct `schedule_id`
values (pandas sorts them; the claims below do not depend on column order). -/
def pivotCols (rows : List DRow) : List (Option Nat) :=
  (rows.map DRow.schedule_id).dedup

/-- The timestamp index of the pivoted frame: the distinct index labels. -/
def pivotIndex (rows : List DRow) : List Ts :=
  (rows.map DRow.ts).dedup

/-- One column of the pivoted frame: at each index label, the field value of the row
with that (timestamp, schedule_id), NaN when no such row. -/
def pivotSeries (rows : List DRow) (sid : Option Nat) (f : DRow → Option ℚ) :
    List (Ts × Option ℚ) :=
  (pivotIndex rows).map (fun t =>
    (t, match rows.find? (fun r => r.ts == t && r.schedule_id == sid) with
        | some r => f r
        | none => none))

/-- `pivot` raises `ValueError` when an (index, column) pair is duplicated. -/
def hasDupPivotKeys (rows : List DRow) : Bool :=
  let ks := rows.map (fun r => (r.ts, r.schedule_id))
  ks.dedup.length != ks.length

/-- One monthly row of a pivoted demand tier after `resample("M").max()`:
the month label and the three per-column maxima. -/
structure TierMonth where
  month : Nat
  kW : Option ℚ
  kW_rate : Option ℚ
  cost : Option ℚ
deriving DecidableEq

/-- Monthly `skipna` maximum of one pivoted column, per month of the pivot index range
(`resample("M").max()` acts on each column independently). -/
def tierMonthly (rows : List DRow) (sid : Option Nat) : List TierMonth :=
  (monthRange (pivotIndex rows)).map (fun m =>
    ⟨ m
    , listMax? (((pivotSeries rows sid DRow.kW).filter
        (fun p => monthKey p.1 == m)).filterMap Prod.snd)
    , listMax? (((pivotSeries rows sid DRow.kW_rate).filter
        (fun p => monthKey p.1 == m)).filterMap Prod.snd)
    , listMax? (((pivotSeries rows sid DRow.cost).filter
        (fun p => monthKey p.1 == m)).filterMap Prod.snd)⟩)

/-- `SingleSite.calculate_demand_charges` (calculator.py lines 49-90): resample the
load, right-merge the demand table, fix up an empty table, add cost, pivot per
`schedule_id`, and reduce each pivoted column independently to its monthly maximum.
Result: per schedule_id, the monthly rows (month, kW-max, rate-max, cost-max). -/
def calculate_demand_charges (sched : List DemandRow) (load : List (Ts × ℚ)) :
    Except PyErr (List (Option Nat × List TierMonth)) :=
  let rows := demandRows sched load
  if hasDupPivotKeys rows then .error .valueError
  else .ok ((pivotCols rows).map (fun sid => (sid, tierMonthly rows sid)))

/-- All flat-demand rows whose `month` column (1…12) equals a given month number. -/
def flatMatches (sched : List FlatRow) (mnum : Nat) : List FlatRow :=
  sched.filter (fun r => r.month == mnum)

/-- calculator.py line 102: `load.resample("15 min").mean().fillna(method="pad").resample("M").max()` —
monthly maxima taken directly from the 15-minute series (no hourly step). -/
def flatResampled (load : List (Ts × ℚ)) : List (Nat × Option ℚ) :=
  resampleMonthMax (ffill (resampleMean 15 load))

/-- The right-merge of the flat-demand table onto the monthly maxima; the join key on
the load side is `load.index.month`, the calendar month number `mk % 12 + 1`. -/
def mergeRightFlat (sched : List FlatRow) (s : List (Nat × Option ℚ)) :
    List (Nat × Option ℚ × Option ℚ) :=
  s.flatMap (fun p =>
    match flatMatches sched (p.1 % 12 + 1) with
    | [] => [(p.1, p.2, none)]
    | ms => ms.map (fun r => (p.1, p.2, some r.rate)))

/-- One row of the frame returned by `calculate_flatdemand_charges`:
(month label, kW, kW_rate, cost). -/
structure FRow where
  month : Nat
  kW : Option ℚ
  kW_rate : Option ℚ
  cost : Option ℚ
deriving DecidableEq

/-- `SingleSite.calculate_flatdemand_charges` (calculator.py lines 92-118). -/
def calculate_flatdemand_charges (sched : List FlatRow) (load : List (Ts × ℚ)) :
    List FRow :=
  sortBy FRow.month ((mergeRightFlat sched (flatResampled load)).map
    (fun r => ⟨r.1, r.2.1, r.2.2, mulOpt r.2.1 r.2.2⟩))

/-- Day labels of `load.resample("D")`: every day from the first stamp's day to the
last stamp's day. -/
def dayRange (load : List (Ts × ℚ)) : List Nat :=
  match load.head?, load.getLast? with
  | some a, some b => List.range' (tsDay a.1) (tsDay b.1 - tsDay a.1 + 1)
  | _, _ => []

/-- `load.resample("D").nearest().resample("M").count()`: `nearest` fills every daily
bucket in range with a (non-NaN) value, so the monthly count is the number of day
labels of that month inside the load's day range. -/
def monthlyDayCounts (load : List (Ts × ℚ)) : List (Nat × Nat) :=
  let stamps := (dayRange load).map (fun d => d * 1440)
  (monthRange stamps).map (fun m =>
    (m, (stamps.filter (fun t => monthKey t == m)).length))

/-- `SingleSite.calculate_meter_charges` (calculator.py lines 120-137).
For `"$/day"` the result is `N[month] * meter`. For `"$/month"` the code computes
`load.resample("M").nearest().count()`, which is `Series.count()` — a scalar, not a
per-month series — so `(N * meter).rename("cost")` is `float.rename` and raises
`AttributeError`. For any other unit the message `"Unknown meter charge unit: {}".format()`
is evaluated first and `str.format` with no positional argument raises `IndexError`,
so the `UnknownRateStructure` on that line is never constructed. -/
def calculate_meter_charges (charge_unit : String) (meter : ℚ)
    (load : List (Ts × ℚ)) : Except PyErr (List (Nat × ℚ)) :=
  if charge_unit = "$/day" then
    .ok ((monthlyDayCounts load).map (fun p => (p.1, (p.2 : ℚ) * meter)))
  else if charge_unit = "$/month" then
    .error .attributeError
  else
    .error .indexError

/-- The `cost` column of the energy frame, indexed by timestamp. -/
def costColEnergy (out : List ERow) : List (Ts × Option ℚ) :=
  out.map (fun r => (r.ts, r.cost))

/-- calculator.py line 146: the energy stream of `calculate_total` —
`calculate_energy_charges(load_kw * interval)["cost"].resample("M").sum()`.
`interval` is `load_kw.index.freq.delta / Timedelta("1 hour")`, the sampling
interval as a fraction of an hour, modelled as an explicit argument. -/
def energyMonthlyOfTotal (sched : List EnergyRow) (interval : ℚ)
    (load : List (Ts × ℚ)) : List (Nat × Option ℚ) :=
  resampleMonthSum (costColEnergy (calculate_energy_charges sched
    (load.map (fun p => (p.1, p.2 * interval)))))

/-- calculator.py line 147: `calculate_demand_charges(load)["cost"].sum(axis=1)` —
per month, the `skipna` sum of the tier cost columns (0 when none is present,
hence always a defined number). All tiers share the same monthly index. -/
def demandCostSum (piv : List (Option Nat × List TierMonth)) :
    List (Nat × Option ℚ) :=
  match piv with
  | [] => []
  | (_, first) :: _ =>
    (first.map TierMonth.month).map (fun m =>
      (m, some ((piv.filterMap (fun tp =>
        (tp.2.find? (fun row => row.month == m)).bind (fun row => row.cost))).sum)))

/-- calculator.py line 148: the flat-demand stream of `calculate_total` —
`calculate_flatdemand_charges(load)["cost"]`. -/
def flatCostStream (sched : List FlatRow) (load : List (Ts × ℚ)) :
    List (Nat × Option ℚ) :=
  (calculate_flatdemand_charges sched load).map (fun r => (r.month, r.cost))

/-- First-occurrence lookup of an index label in a monthly series
(all series built above have duplicate-free labels). -/
def lookupVal (s : List (Nat × Option ℚ)) (k : Nat) : Option (Option ℚ) :=
  (s.find? (fun p => p.1 == k)).map Prod.snd

/-- Index labels of the aligned sum of two series: the union of both indexes. -/
def alignKeys (a b : List (Nat × Option ℚ)) : List Nat :=
  ((a.map Prod.fst) ++ (b.map Prod.fst)).dedup

/-- pandas `+` of two series: align on the index union; a label missing from either
side, or carrying NaN on either side, yields NaN. -/
def seriesAdd (a b : List (Nat × Option ℚ)) : List (Nat × Option ℚ) :=
  (alignKeys a b).map (fun k =>
    (k, match lookupVal a k, lookupVal b k with
        | some x, some y => addOpt x y
        | _, _ => none))

/-- `SingleSite.calculate_total` (calculator.py lines 139-150):
`(meter + energy + demand + flat).rename("total_cost")`.  Exceptions escape to the
caller in source order: the demand calculator (line 147) is evaluated before the
meter calculator (line 149), so a demand-pivot `ValueError` propagates first. -/
def calculate_total (sched : Sched) (interval : ℚ) (load : List (Ts × ℚ)) :
    Except PyErr (List (Nat × Option ℚ)) :=
  match calculate_demand_charges sched.demand load with
  | .error e => .error e
  | .ok piv =>
    match calculate_meter_charges sched.meter_charge_unit sched.meter load with
    | .error e => .error e
    | .ok meter =>
      .ok (seriesAdd (seriesAdd (seriesAdd (meter.map (fun p => (p.1, some p.2)))
        (energyMonthlyOfTotal sched.energy interval load)) (demandCostSum piv))
        (flatCostStream sched.flatdemand load))

/-- A pandas Series as a Python object: payload plus the mutable metadata that the
calculators touch in place (`rename(..., inplace=True)` / `rename_axis(..., inplace=True)`). -/
structure SeriesObj where
  name : Option String
  indexName : Option String
  data : List (Ts × ℚ)
deriving DecidableEq

/-- `calculate_energy_charges` with the caller's series object threaded through.
The source first binds `load = load.copy()` (a fresh object), and the two in-place
renames then mutate that copy only, so the caller's object comes back unchanged;
without the `.copy()` the rebinding would have to hit `s` itself. -/
def calculate_energy_charges_st (sched : List EnergyRow) (s : SeriesObj) :
    List ERow × SeriesObj :=
  let load := s
  let load := { load with name := some (load.name.getD "kWh") }
  let load := { load with indexName := some (load.indexName.getD "timestamp") }
  (calculate_energy_charges sched load.data, s)

/-- `calculate_demand_charges` with the caller's series threaded (same copy-then-rename
pattern, calculator.py lines 54-56). -/
def calculate_demand_charges_st (sched : List DemandRow) (s : SeriesObj) :
    Except PyErr (List (Option Nat × List TierMonth)) × SeriesObj :=
  let load := s
  let load := { load with name := some (load.name.getD "kW") }
  let load := { load with indexName := some (load.indexName.getD "timestamp") }
  (calculate_demand_charges sched load.data, s)

/-- `calculate_flatdemand_charges` with the caller's series threaded
(copy-then-rename, calculator.py lines 97-99). -/
def calculate_flatdemand_charges_st (sched : List FlatRow) (s : SeriesObj) :
    List FRow × SeriesObj :=
  let load := s
  let load := { load with name := some (load.name.getD "kW") }
  let load := { load with indexName := some (load.indexName.getD "timestamp") }
  (calculate_flatdemand_charges sched load.data, s)

/-- `calculate_meter_charges` with the caller's series threaded: it never mutates
(resampling allocates new objects). -/
def calculate_meter_charges_st (charge_unit : String) (meter : ℚ) (s : SeriesObj) :
    Except PyErr (List (Nat × ℚ)) × SeriesObj :=
  (calculate_meter_charges charge_unit meter s.data, s)

/-- `calculate_total` with the caller's series object threaded through the four
calculators in source order (`load_kw * interval` builds a fresh object for the
energy calculator). -/
def calculate_total_st (sched : Sched) (interval : ℚ) (s : SeriesObj) :
    Except PyErr (List (Nat × Option ℚ)) × SeriesObj :=
  let scaled : SeriesObj := { s with data := s.data.map (fun p => (p.1, p.2 * interval)) }
  let (eout, _) := calculate_energy_charges_st sched.energy scaled
  let energy := resampleMonthSum (costColEnergy eout)
  let (dres, s1) := calculate_demand_charges_st sched.demand s
  let (fout, s2) := calculate_flatdemand_charges_st sched.flatdemand s1
  let flat := fout.map (fun r => (r.month, r.cost))
  let (mres, s3) := calculate_meter_charges_st sched.meter_charge_unit sched.meter s2
  ( do
      let piv ← dres
      let demand := demandCostSum piv
      let meter ← mres
      let meterS := meter.map (fun p => (p.1, some p.2))
      return seriesAdd (seriesAdd (seriesAdd meterS energy) demand) flat
  , s3)

/-- The forward-filled 15-minute mean at bucket `b`, as the specification words it:
the mean of bucket `b`, or, when that bucket is empty, the mean of the nearest
earlier non-empty bucket (NaN when there is none). -/
def paddedMeanAt (load : List (Ts × ℚ)) (b : Nat) : Option ℚ :=
  ((((resampleMean 15 load).takeWhile (fun p => p.1 ≤ b * 15))).filterMap Prod.snd).getLast?

/-- Modelled from the spec: the Peak-Demand resampling contract in its own words —
load is resampled to uniform 15-minute intervals by mean aggregation with
forward-fill for gaps (`paddedMeanAt`), then aggregated to hourly granularity taking
the maximum within each hour. -/
def demandResampleSpec (load : List (Ts × ℚ)) : List (Ts × Option ℚ) :=
  (bucketRange 60 ((resampleMean 15 load).map Prod.fst)).map (fun h =>
    (h * 60, listMax? ((((resampleMean 15 load).map Prod.fst).filter
      (fun t => t / 60 == h)).filterMap (fun t => paddedMeanAt load (t / 15)))))

/-- `v` is the `skipna` maximum of `vals`: defined exactly when some value is present,
an upper bound of all of them, and attained. -/
def maxSpec (vals : List ℚ) (v : Option ℚ) : Prop :=
  (v = none → vals = []) ∧
  (∀ x ∈ vals, ∃ m, v = some m ∧ x ≤ m) ∧
  (∀ m, v = some m → m ∈ vals)

/-- A fixed reference stamp used by concrete witnesses below:
2018-01-01 00:00, which is day 17532 since the epoch and a Monday. -/
def T0 : Ts := 25246080

theorem insertBy_perm {α : Type} (key : α → Nat) (x : α) (l : List α) :
    (insertBy key x l).Perm (x :: l) := by
  induction l with
  | nil => simp [insertBy]
  | cons y ys ih =>
    by_cases h : key y ≤ key x
    · simp only [insertBy, if_pos h]
      exact (ih.cons y).trans (List.Perm.swap x y ys)
    · simp [insertBy, if_neg h]

theorem sortBy_perm {α : Type} (key : α → Nat) (l : List α) : (sortBy key l).Perm l := by
  induction l with
  | nil => simp [sortBy]
  | cons x xs ih => exact (insertBy_perm key x (sortBy key xs)).trans (ih.cons x)

theorem mem_sortBy {α : Type} {key : α → Nat} {a : α} {l : List α} :
    a ∈ sortBy key l ↔ a ∈ l := (sortBy_perm key l).mem_iff

theorem length_sortBy {α : Type} (key : α → Nat) (l : List α) :
    (sortBy key l).length = l.length := (sortBy_perm key l).length_eq

theorem filter_key_eq_singleton {α β : Type} [BEq β] [LawfulBEq β] (key : α → β)
    {l : List α} (h : (l.map key).Nodup) {x : α} (hx : x ∈ l) :
    l.filter (fun y => key y == key x) = [x] := by
  induction l with
  | nil => cases hx
  | cons a tl ih =>
    rw [List.map_cons, List.nodup_cons] at h
    rcases List.mem_cons.mp hx with rfl | hxtl
    · simp only [List.filter_cons, beq_self_eq_true, if_pos]
      have hnil : tl.filter (fun y => key y == key x) = [] := by
        refine List.filter_eq_nil_iff.mpr (fun y hy hbeq => ?_)
        exact h.1 (beq_iff_eq.mp hbeq ▸ List.mem_map_of_mem key hy)
      rw [hnil]
    · have hne : (key a == key x) = false := by
        rw [beq_eq_false_iff_ne]
        intro hbeq
        exact h.1 (hbeq ▸ List.mem_map_of_mem key hxtl)
      simp only [List.filter_cons, hne, if_neg, Bool.false_eq_true, not_false_iff]
      exact ih h.2 hxtl

theorem filter_key_length_le_one {α β : Type} [BEq β] [LawfulBEq β] (key : α → β)
    {l : List α} (h : (l.map key).Nodup) (v : β) :
    (l.filter (fun y => key y == v)).length ≤ 1 := by
  induction l with
  | nil => simp
  | cons a tl ih =>
    rw [List.map_cons, List.nodup_cons] at h
    by_cases hav : (key a == v) = true
    · simp only [List.filter_cons, hav, if_pos]
      have hnil : tl.filter (fun y => key y == v) = [] := by
        refine List.filter_eq_nil_iff.mpr (fun y hy hbeq => ?_)
        have hya : key y = key a := (beq_iff_eq.mp hbeq).trans (beq_iff_eq.mp hav).symm
        exact h.1 (hya ▸ List.mem_map_of_mem key hy)
      simp [hnil]
    · simp only [List.filter_cons, hav, if_neg, Bool.false_eq_true, not_false_iff]
      exact ih h.2

theorem filter_flatMap {α β : Type} (l : List α) (g : α → List β) (p : β → Bool) :
    (l.flatMap g).filter p = l.flatMap (fun x => (g x).filter p) := by
  induction l with
  | nil => rfl
  | cons a tl ih => simp only [List.flatMap_cons, List.filter_append, ih]

theorem foldl_max_le {x : ℚ} {xs : List ℚ} : x ≤ xs.foldl max x := by
  induction xs generalizing x with
  | nil => exact le_rfl
  | cons y ys ih => exact le_trans (le_max_left x y) ih

theorem mem_le_foldl_max {a : ℚ} {xs : List ℚ} (x : ℚ) (h : a ∈ xs) :
    a ≤ xs.foldl max x := by
  induction xs generalizing x with
  | nil => cases h
  | cons y ys ih =>
    rcases List.mem_cons.mp h with rfl | htl
    · exact le_trans (le_max_right x a) foldl_max_le
    · exact ih (max x y) htl

theorem foldl_max_mem (xs : List ℚ) (x : ℚ) :
    xs.foldl max x = x ∨ xs.foldl max x ∈ xs := by
  induction xs generalizing x with
  | nil => exact Or.inl rfl
  | cons y ys ih =>
    rcases ih (max x y) with heq | hmem
    · rcases max_choice x y with hx | hy
      · exact Or.inl (by rw [List.foldl_cons, heq, hx])
      · exact Or.inr (by rw [List.foldl_cons, heq, hy]; exact List.mem_cons_self y ys)
    · exact Or.inr (List.mem_cons_of_mem y hmem)

theorem listMax?_spec (l : List ℚ) : maxSpec l (listMax? l) := by
  cases l with
  | nil =>
    exact ⟨fun _ => rfl, by simp, fun m hm => by simp [listMax?] at hm⟩
  | cons x xs =>
    refine ⟨by simp [listMax?], ?_, ?_⟩
    · intro a ha
      refine ⟨xs.foldl max x, rfl, ?_⟩
      rcases List.mem_cons.mp ha with rfl | htl
      · exact foldl_max_le
      · exact mem_le_foldl_max x htl
    · intro m hm
      have hm' : m = xs.foldl max x := by simpa [listMax?] using hm.symm
      subst hm'
      rcases foldl_max_mem xs x with heq | hmem
      · rw [heq]; exact List.mem_cons_self x xs
      · exact List.mem_cons_of_mem x hmem

set_option maxRecDepth 8000 in
unseal Rat.add Rat.mul Rat.inv Rat.sub in
/-- C5: for `charge_unit = "$/day"` on January 2018 with continuous daily data the
code does return `cost = 31 * rate` for the month, but for `charge_unit = "$/month"`
it does not return `N = 1` per month: `load.resample("M").nearest().count()` is the
scalar `Series.count()`, and `(N * meter).rename("cost")` on that scalar raises
`AttributeError`, contradicting the claim (and the code's own comment, which says
"we simply have one charge per month in our index"). -/
theorem meter_charges_eval :
    calculate_meter_charges "$/day" 10
      ((List.range 31).map (fun i => (T0 + 1440 * i, (1 : ℚ)))) = .ok [(24216, 310)] ∧
    calculate_meter_charges "$/month" 10
      ((List.range 31).map (fun i => (T0 + 1440 * i, (1 : ℚ)))) = .error .attributeError := by
  exact ⟨by decide, rfl⟩

/-- C6: with a `charge_unit` that is neither of the two supported values, the
calculator does not surface `UnknownRateStructure`: building the error message
evaluates `"Unknown meter charge unit: {}".format()`, and `str.format` with no
positional argument raises `IndexError` first, so the escaping exception is
`IndexError` for every unsupported unit (and `"$/month"`, a supported value,
raises `AttributeError`, see `meter_charges_eval`). -/
theorem meter_unknown_unit_eval :
    calculate_meter_charges "$/hour" 10 [(T0, (1 : ℚ))] = .error .indexError ∧
    ∀ msg, calculate_meter_charges "$/hour" 10 [(T0, (1 : ℚ))] ≠
      .error (.unknownRateStructure msg) := by
  refine ⟨rfl, fun msg h => ?_⟩
  rw [show calculate_meter_charges "$/hour" 10 [(T0, (1 : ℚ))] = .error .indexError from rfl]
    at h
  simp at h

/-- C10: `calculate_total` never mutates the caller's load series (every calculator
rebinds `load = load.copy()` before its in-place renames, so the caller's object is
returned unchanged), and recomputing on that unchanged series yields the identical
result. -/
theorem total_idempotent_no_mutation (sched : Sched) (interval : ℚ) (s : SeriesObj) :
    (calculate_total_st sched interval s).2 = s ∧
    (calculate_total_st sched interval ((calculate_total_st sched interval s).2)).1 =
      (calculate_total_st sched interval s).1 :=
  ⟨rfl, rfl⟩

/-- C2 is falsified as stated: the right-join does not always produce exactly one
output row per load sample.  With a schedule whose energy table carries two rows for
the same `(is_weekday, month, hour)` key, the single sample fans out into two rows
(the join never drops samples, but it can duplicate them). -/
theorem energy_rowcount_counterexample :
    (calculate_energy_charges [⟨true, 1, 0, 0, 1⟩, ⟨true, 1, 0, 1, 2⟩]
      [(T0, (1 : ℚ))]).length = 2 ∧
    (calculate_energy_charges [⟨true, 1, 0, 0, 1⟩, ⟨true, 1, 0, 1, 2⟩]
      [(T0, (1 : ℚ))]).length ≠ [(T0, (1 : ℚ))].length := by
  constructor
  · decide
  · decide

theorem energyKeyMatch_as_beq (t : Ts) (y : EnergyRow) :
    energyKeyMatch t y =
      ((y.is_weekday, y.month, y.hour) == (isWeekday t, tsMonth t, tsHour t)) := by
  simp only [energyKeyMatch]
  rw [Bool.and_assoc]
  rfl

theorem energyMatches_length_le_one (sched : List EnergyRow) (t : Ts)
    (hkeys : (sched.map (fun r => (r.is_weekday, r.month, r.hour))).Nodup) :
    (energyMatches sched t).length ≤ 1 := by
  have hcong : energyMatches sched t = sched.filter
      (fun y => (y.is_weekday, y.month, y.hour) == (isWeekday t, tsMonth t, tsHour t)) := by
    rw [energyMatches]
    exact List.filter_congr (fun y _ => energyKeyMatch_as_beq t y)
  rw [hcong]
  exact filter_key_length_le_one (fun r : EnergyRow => (r.is_weekday, r.month, r.hour))
    hkeys (isWeekday t, tsMonth t, tsHour t)

theorem energyMatches_unique {sched : List EnergyRow} {t : Ts}
    (hkeys : (sched.map (fun r => (r.is_weekday, r.month, r.hour))).Nodup)
    {r r' : EnergyRow} (hr : r ∈ sched) (hr' : r' ∈ sched)
    (hm : energyKeyMatch t r = true) (hm' : energyKeyMatch t r' = true) : r = r' := by
  have hk : ∀ {y : EnergyRow}, energyKeyMatch t y = true →
      (y.is_weekday, y.month, y.hour) = (isWeekday t, tsMonth t, tsHour t) := by
    intro y hy
    rw [energyKeyMatch_as_beq] at hy
    exact beq_iff_eq.mp hy
  exact List.inj_on_of_nodup_map hkeys hr hr' ((hk hm).trans (hk hm').symm)

/-- C2 amended: whenever the energy table has at most one row per
`(is_weekday, month, hour)` key — as every parser-produced table does — the output of
`calculate_energy_charges` has exactly one row per load sample, and a sample with no
matching schedule row still appears, with undefined rate and cost, rather than being
dropped. -/
theorem energy_rowcount_amended (sched : List EnergyRow) (load : List (Ts × ℚ))
    (hkeys : (sched.map (fun r => (r.is_weekday, r.month, r.hour))).Nodup) :
    (calculate_energy_charges sched load).length = load.length ∧
    ∀ p ∈ load, energyMatches sched p.1 = [] →
      (⟨p.1, p.2, none, none⟩ : ERow) ∈ calculate_energy_charges sched load := by
  constructor
  · rw [calculate_energy_charges, length_sortBy, List.length_map]
    induction load with
    | nil => rfl
    | cons p tl ih =>
      simp only [mergeRightEnergy, List.flatMap_cons, List.length_append, List.length_cons]
      simp only [mergeRightEnergy] at ih
      rw [ih]
      have hg : (match energyMatches sched p.1 with
          | [] => [(p.1, p.2, (none : Option ℚ))]
          | ms => ms.map (fun r : EnergyRow => (p.1, p.2, some r.rate))).length = 1 := by
        cases hm : energyMatches sched p.1 with
        | nil => rfl
        | cons r rs =>
          have hle := energyMatches_length_le_one sched p.1 hkeys
          rw [hm, List.length_cons] at hle
          have hrs : rs = [] := List.length_eq_zero.mp (by omega)
          subst hrs
          rfl
      rw [hg]
      omega
  · intro p hp hm
    rw [calculate_energy_charges, mem_sortBy]
    refine List.mem_map.mpr ⟨(p.1, p.2, none), ?_, rfl⟩
    refine List.mem_flatMap.mpr ⟨p, hp, ?_⟩
    rw [hm]
    exact List.mem_singleton.mpr rfl

unseal Rat.add Rat.mul Rat.inv Rat.sub in
/-- Witness for the amended C2 at a concrete input: one matched and one unmatched
hourly sample against a one-row table give exactly two output rows, the unmatched
one with undefined rate and cost. -/
theorem energy_rowcount_amended_witness :
    (calculate_energy_charges [⟨true, 1, 0, 0, 1⟩] [(T0, (1 : ℚ)), (T0 + 60, 5)]).length = 2 ∧
    (⟨T0 + 60, 5, none, none⟩ : ERow) ∈
      calculate_energy_charges [⟨true, 1, 0, 0, 1⟩] [(T0, (1 : ℚ)), (T0 + 60, 5)] := by
  have h := energy_rowcount_amended [⟨true, 1, 0, 0, 1⟩] [(T0, (1 : ℚ)), (T0 + 60, 5)]
    (by decide)
  exact ⟨h.1, h.2 (T0 + 60, 5) (by decide) (by decide)⟩

/-- C1: under the claim's presupposition that the schedule has (at most) one row per
`(is_weekday, month, hour)` key, every output row of `calculate_energy_charges`
carries the rate of the schedule row matching its calendar key — any matching row
determines the assigned rate — and a sample with no matching row gets an undefined
rate; conversely every load sample produces the corresponding output row. -/
theorem energy_rate_assignment (sched : List EnergyRow) (load : List (Ts × ℚ))
    (hkeys : (sched.map (fun r => (r.is_weekday, r.month, r.hour))).Nodup) :
    (∀ row ∈ calculate_energy_charges sched load,
      (∀ r ∈ sched, energyKeyMatch row.ts r = true → row.kWh_rate = some r.rate) ∧
      (energyMatches sched row.ts = [] → row.kWh_rate = none)) ∧
    (∀ p ∈ load, ∀ r ∈ sched, energyKeyMatch p.1 r = true →
      (⟨p.1, p.2, some r.rate, some (p.2 * r.rate)⟩ : ERow) ∈
        calculate_energy_charges sched load) ∧
    (∀ p ∈ load, energyMatches sched p.1 = [] →
      (⟨p.1, p.2, none, none⟩ : ERow) ∈ calculate_energy_charges sched load) := by
  refine ⟨?_, ?_, ?_⟩
  · intro row hrow
    rw [calculate_energy_charges, mem_sortBy] at hrow
    obtain ⟨mrow, hmr, heq⟩ := List.mem_map.mp hrow
    obtain ⟨p, _, hgr⟩ := List.mem_flatMap.mp hmr
    cases hm : energyMatches sched p.1 with
    | nil =>
      rw [hm] at hgr
      have hmrow : mrow = (p.1, p.2, none) := List.mem_singleton.mp hgr
      subst hmrow
      subst heq
      constructor
      · intro r hr hmatch
        have : r ∈ energyMatches sched p.1 := List.mem_filter.mpr ⟨hr, hmatch⟩
        rw [hm] at this
        cases this
      · intro _
        rfl
    | cons r0 rs =>
      rw [hm] at hgr
      obtain ⟨rm, hrm, hmrow⟩ := List.mem_map.mp hgr
      have hrmem : rm ∈ energyMatches sched p.1 := by rw [hm]; exact hrm
      obtain ⟨hrmsched, hrmmatch⟩ := List.mem_filter.mp hrmem
      subst hmrow
      subst heq
      constructor
      · intro r hr hmatch
        have hrrm : r = rm := energyMatches_unique hkeys hr hrmsched hmatch hrmmatch
        rw [hrrm]
      · intro hnil
        rw [hnil] at hm
        cases hm
  · intro p hp r hr hmatch
    rw [calculate_energy_charges, mem_sortBy]
    refine List.mem_map.mpr ⟨(p.1, p.2, some r.rate), ?_, rfl⟩
    refine List.mem_flatMap.mpr ⟨p, hp, ?_⟩
    have hrmem : r ∈ energyMatches sched p.1 := List.mem_filter.mpr ⟨hr, hmatch⟩
    cases hm : energyMatches sched p.1 with
    | nil => rw [hm] at hrmem; cases hrmem
    | cons r0 rs =>
      rw [hm] at hrmem
      exact List.mem_map_of_mem _ hrmem
  · intro p hp hm
    rw [calculate_energy_charges, mem_sortBy]
    refine List.mem_map.mpr ⟨(p.1, p.2, none), ?_, rfl⟩
    refine List.mem_flatMap.mpr ⟨p, hp, ?_⟩
    rw [hm]
    exact List.mem_singleton.mpr rfl

/-- Witness for C1 at a concrete input: a Monday-midnight January sample picks up the
unique matching row's rate 3 (cost 2 * 3), and the hour-1 sample, which no row
matches, gets an undefined rate. -/
theorem energy_rate_assignment_witness :
    (⟨T0, 2, some 3, some ((2 : ℚ) * 3)⟩ : ERow) ∈
      calculate_energy_charges [⟨true, 1, 0, 0, 3⟩] [(T0, (2 : ℚ)), (T0 + 60, 5)] ∧
    (⟨T0 + 60, 5, none, none⟩ : ERow) ∈
      calculate_energy_charges [⟨true, 1, 0, 0, 3⟩] [(T0, (2 : ℚ)), (T0 + 60, 5)] := by
  have h := energy_rate_assignment [⟨true, 1, 0, 0, 3⟩] [(T0, (2 : ℚ)), (T0 + 60, 5)]
    (by decide)
  exact ⟨h.2.1 (T0, 2) (by decide) ⟨true, 1, 0, 0, 3⟩ (by decide) (by decide),
    h.2.2 (T0 + 60, 5) (by decide) (by decide)⟩

theorem map_fst_keyed {γ : Type} (ks : List Nat) (g : Nat → γ) :
    ((ks.map (fun m => (m, g m))).map Prod.fst) = ks := by
  rw [List.map_map]
  exact List.map_id ks

theorem monthRange_nodup (ts : List Ts) : (monthRange ts).Nodup := by
  rw [monthRange]
  split
  · exact List.nodup_range' _ _
  · exact List.nodup_nil

theorem bucketRange_nodup (w : Nat) (ts : List Ts) : (bucketRange w ts).Nodup := by
  rw [bucketRange]
  split
  · exact List.nodup_range' _ _
  · exact List.nodup_nil

theorem flatResampled_keys (load : List (Ts × ℚ)) :
    (flatResampled load).map Prod.fst =
      monthRange ((ffill (resampleMean 15 load)).map Prod.fst) := by
  rw [flatResampled, resampleMonthMax]
  exact map_fst_keyed _ _

theorem flatResampled_keys_nodup (load : List (Ts × ℚ)) :
    ((flatResampled load).map Prod.fst).Nodup := by
  rw [flatResampled_keys]
  exact monthRange_nodup _

theorem filter_flatMap_single {α β : Type} (S : List (Nat × α)) (g : Nat × α → List β)
    (pr : β → Bool) (mk : Nat)
    (hkeep : ∀ p ∈ S, p.1 = mk → (g p).filter pr = g p)
    (hdrop : ∀ p ∈ S, p.1 ≠ mk → (g p).filter pr = []) :
    (S.flatMap g).filter pr = (S.filter (fun p => p.1 == mk)).flatMap g := by
  induction S with
  | nil => rfl
  | cons a tl ih =>
    have ihtl := ih (fun p hp => hkeep p (List.mem_cons_of_mem a hp))
      (fun p hp => hdrop p (List.mem_cons_of_mem a hp))
    rw [List.flatMap_cons, List.filter_append, List.filter_cons]
    by_cases ha : a.1 = mk
    · rw [hkeep a (List.mem_cons_self a tl) ha, if_pos (by simp [ha]), List.flatMap_cons,
        ihtl]
    · rw [hdrop a (List.mem_cons_self a tl) ha, if_neg (by simp [ha]), List.nil_append,
        ihtl]

/-- C8: for a month `mk` of the load's range whose 15-minute-resampled monthly maximum
is `q` (taken by `flatResampled` directly from the 15-minute series, with no hourly
step), and a flat-demand table with at most one row per month number containing the
row `r` for `mk`'s month number, `calculate_flatdemand_charges` yields exactly one row
for `mk`, with cost `q * r.rate`. -/
theorem flatdemand_monthly_cost (sched : List FlatRow) (load : List (Ts × ℚ))
    (mk : Nat) (q : ℚ) (r : FlatRow)
    (hmonths : (sched.map FlatRow.month).Nodup)
    (hq : (mk, some q) ∈ flatResampled load)
    (hr : r ∈ sched) (hm : r.month = mk % 12 + 1) :
    (calculate_flatdemand_charges sched load).filter (fun row => row.month == mk) =
      [⟨mk, some q, some r.rate, some (q * r.rate)⟩] := by
  have hmatches : flatMatches sched (mk % 12 + 1) = [r] := by
    have h1 := filter_key_eq_singleton FlatRow.month hmonths hr
    rw [flatMatches, ← hm]
    exact h1
  have hSfilter : (flatResampled load).filter (fun p => p.1 == mk) = [(mk, some q)] :=
    filter_key_eq_singleton Prod.fst (flatResampled_keys_nodup load) hq
  have hgroup_fst : ∀ (p : Nat × Option ℚ) (x : Nat × Option ℚ × Option ℚ),
      x ∈ (match flatMatches sched (p.1 % 12 + 1) with
        | [] => [(p.1, p.2, (none : Option ℚ))]
        | ms => ms.map (fun r' : FlatRow => (p.1, p.2, some r'.rate))) → x.1 = p.1 := by
    intro p x hx
    cases hmt : flatMatches sched (p.1 % 12 + 1) with
    | nil =>
      rw [hmt] at hx
      rw [List.mem_singleton.mp hx]
    | cons a as =>
      rw [hmt] at hx
      obtain ⟨r', _, hx'⟩ := List.mem_map.mp hx
      rw [← hx']
  have hgval : (mergeRightFlat sched (flatResampled load)).filter (fun x => x.1 == mk) =
      [(mk, some q, some r.rate)] := by
    rw [mergeRightFlat, filter_flatMap_single _ _ _ mk
      (fun p _ hpmk => List.filter_eq_self.mpr
        (fun x hx => by rw [hgroup_fst p x hx, hpmk]; exact beq_self_eq_true mk))
      (fun p _ hpmk => List.filter_eq_nil_iff.mpr
        (fun x hx hbeq => hpmk ((hgroup_fst p x hx).symm.trans (beq_iff_eq.mp hbeq)))),
      hSfilter, List.flatMap_cons, List.flatMap_nil, List.append_nil]
    rw [show ((mk, some q) : Nat × Option ℚ).1 % 12 + 1 = mk % 12 + 1 from rfl, hmatches]
    rfl
  have hstep : ((mergeRightFlat sched (flatResampled load)).map
      (fun r' => (⟨r'.1, r'.2.1, r'.2.2, mulOpt r'.2.1 r'.2.2⟩ : FRow))).filter
      (fun row => row.month == mk) = [⟨mk, some q, some r.rate, some (q * r.rate)⟩] := by
    rw [List.filter_map]
    show ((mergeRightFlat sched (flatResampled load)).filter
        (fun x : Nat × Option ℚ × Option ℚ => x.1 == mk)).map
        (fun r' => (⟨r'.1, r'.2.1, r'.2.2, mulOpt r'.2.1 r'.2.2⟩ : FRow)) =
      [⟨mk, some q, some r.rate, some (q * r.rate)⟩]
    rw [hgval]
    rfl
  rw [calculate_flatdemand_charges]
  exact List.perm_singleton.mp
    (hstep ▸ List.Perm.filter _ (sortBy_perm FRow.month _))

unseal Rat.add Rat.mul Rat.inv Rat.sub in
/-- Witness for C8 at a concrete input: January 2018 load with 15-minute maximum 8
and flat rate 3 produces the single monthly row with cost 8 * 3. -/
theorem flatdemand_monthly_cost_witness :
    (calculate_flatdemand_charges [⟨1, 0, 3⟩] [(T0, (8 : ℚ)), (T0 + 130, 2)]).filter
      (fun row => row.month == 24216) = [⟨24216, some 8, some 3, some ((8 : ℚ) * 3)⟩] :=
  flatdemand_monthly_cost [⟨1, 0, 3⟩] [(T0, (8 : ℚ)), (T0 + 130, 2)] 24216 8 ⟨1, 0, 3⟩
    (by decide) (by decide) (by decide) (by decide)

theorem lookupVal_keyed (ks : List Nat) (f : Nat → Option ℚ) (m : Nat) (hm : m ∈ ks) :
    lookupVal (ks.map (fun k => (k, f k))) m = some (f m) := by
  induction ks with
  | nil => cases hm
  | cons a tl ih =>
    rw [List.map_cons, lookupVal, List.find?_cons]
    by_cases ha : a = m
    · subst ha
      rw [show (((a, f a) : Nat × Option ℚ).1 == a) = true from beq_self_eq_true a]
      rfl
    · rw [show (((a, f a) : Nat × Option ℚ).1 == m) = false from by simpa using ha]
      rcases List.mem_cons.mp hm with rfl | hmtl
      · exact absurd rfl ha
      · exact ih hmtl

theorem lookupVal_value_mem {s : List (Nat × Option ℚ)} {m : Nat} {v : Option ℚ}
    (h : lookupVal s m = some v) : (m, v) ∈ s := by
  rw [lookupVal] at h
  cases hf : s.find? (fun p => p.1 == m) with
  | none => rw [hf] at h; cases h
  | some a =>
    rw [hf] at h
    have ha : a ∈ s := List.mem_of_find?_eq_some hf
    have hpa := List.find?_some hf
    have hak : a.1 = m := beq_iff_eq.mp hpa
    have hav : a.2 = v := Option.some_inj.mp h
    rw [← hak, ← hav]
    exact ha

theorem lookupVal_mem_keys {s : List (Nat × Option ℚ)} {m : Nat} {x : Option ℚ}
    (h : lookupVal s m = some x) : m ∈ s.map Prod.fst :=
  List.mem_map.mpr ⟨(m, x), lookupVal_value_mem h, rfl⟩

theorem seriesAdd_mem {a b : List (Nat × Option ℚ)} {k : Nat} {v : Option ℚ}
    (h : (k, v) ∈ seriesAdd a b) :
    v = (match lookupVal a k, lookupVal b k with
         | some x, some y => addOpt x y
         | _, _ => none) := by
  rw [seriesAdd] at h
  obtain ⟨k', _, heq⟩ := List.mem_map.mp h
  injection heq with h1 h2
  subst h1
  exact h2.symm

theorem seriesAdd_lookup {a b : List (Nat × Option ℚ)} {m : Nat} {x y : Option ℚ}
    (ha : lookupVal a m = some x) (hb : lookupVal b m = some y) :
    lookupVal (seriesAdd a b) m = some (addOpt x y) := by
  have hm : m ∈ alignKeys a b :=
    List.mem_dedup.mpr (List.mem_append_left _ (lookupVal_mem_keys ha))
  rw [seriesAdd, lookupVal_keyed _ _ m hm, ha, hb]

theorem resampleMonthSum_isSome (s : List (Ts × Option ℚ)) :
    ∀ p ∈ resampleMonthSum s, p.2.isSome := by
  intro p hp
  obtain ⟨m, _, heq⟩ := List.mem_map.mp hp
  rw [← heq]
  rfl

theorem demandCostSum_isSome (piv : List (Option Nat × List TierMonth)) :
    ∀ p ∈ demandCostSum piv, p.2.isSome := by
  intro p hp
  cases piv with
  | nil => simp [demandCostSum] at hp
  | cons a rest =>
    obtain ⟨m, _, heq⟩ := List.mem_map.mp (by simpa [demandCostSum] using hp)
    rw [← heq]
    rfl

unseal Rat.add Rat.mul Rat.inv Rat.sub in
/-- C3 is falsified as stated: with an empty flat-demand table (a tariff lacking that
charge category), the energy, demand and meter streams for January are all defined
(the demand stream degrades to 0, the claim's intended behaviour), yet the returned
`total_cost` for the month is undefined, because the final pandas `+` propagates the
flat-demand NaN instead of treating it as zero. -/
theorem total_missing_data_counterexample :
    calculate_total ⟨[⟨true, 1, 0, 0, 2⟩], [], [], "$/day", 10⟩ (1/4) [(T0, 4)] =
      .ok [(24216, none)] ∧
    flatCostStream [] [(T0, 4)] = [(24216, none)] ∧
    calculate_meter_charges "$/day" 10 [(T0, 4)] = .ok [(24216, 10)] ∧
    energyMonthlyOfTotal [⟨true, 1, 0, 0, 2⟩] (1/4) [(T0, 4)] = [(24216, some 2)] ∧
    Except.map demandCostSum (calculate_demand_charges [] [(T0, 4)]) =
      .ok [(24216, some 0)] := by
  refine ⟨by decide, by decide, by decide, by decide, by decide⟩

/-- C3 amended: the energy and demand streams of `calculate_total` always carry
defined monthly values (missing data collapses to a NaN-skipping sum, 0 in the
degenerate case), and the month's total is a defined number whenever all four streams
cover the month and the flat-demand cost is defined there; but an undefined
flat-demand cost for a month makes that month's `total_cost` undefined — the final
addition propagates the missing value rather than treating it as zero. -/
theorem total_missing_data_amended (sched : Sched) (interval : ℚ)
    (load : List (Ts × ℚ)) (out : List (Nat × Option ℚ))
    (h : calculate_total sched interval load = .ok out) :
    (∀ p ∈ energyMonthlyOfTotal sched.energy interval load, p.2.isSome) ∧
    (∀ piv, calculate_demand_charges sched.demand load = .ok piv →
      ∀ p ∈ demandCostSum piv, p.2.isSome) ∧
    (∀ m v, (m, v) ∈ out →
      lookupVal (flatCostStream sched.flatdemand load) m = some none → v = none) ∧
    (∀ m v, (m, v) ∈ out → ∀ piv ms,
      calculate_demand_charges sched.demand load = .ok piv →
      calculate_meter_charges sched.meter_charge_unit sched.meter load = .ok ms →
      ∀ c mv ev dv,
      lookupVal (flatCostStream sched.flatdemand load) m = some (some c) →
      lookupVal (ms.map (fun p => (p.1, some p.2))) m = some mv →
      lookupVal (energyMonthlyOfTotal sched.energy interval load) m = some ev →
      lookupVal (demandCostSum piv) m = some dv →
      v.isSome) := by
  cases hd : calculate_demand_charges sched.demand load with
  | error e => rw [calculate_total, hd] at h; cases h
  | ok piv0 =>
    cases hms : calculate_meter_charges sched.meter_charge_unit sched.meter load with
    | error e => rw [calculate_total, hd, hms] at h; cases h
    | ok ms0 =>
      rw [calculate_total, hd, hms] at h
      have hout : out = seriesAdd (seriesAdd (seriesAdd
          (ms0.map (fun p => (p.1, some p.2)))
          (energyMonthlyOfTotal sched.energy interval load)) (demandCostSum piv0))
          (flatCostStream sched.flatdemand load) := (Except.ok.inj h).symm
      refine ⟨resampleMonthSum_isSome _, ?_, ?_, ?_⟩
      · intro piv hpiv
        injection hpiv with hpp
        subst hpp
        exact demandCostSum_isSome piv0
      · intro m v hv hflat
        subst hout
        have := seriesAdd_mem hv
        rw [hflat] at this
        rw [this]
        cases lookupVal (seriesAdd (seriesAdd (ms0.map (fun p => (p.1, some p.2)))
            (energyMonthlyOfTotal sched.energy interval load)) (demandCostSum piv0)) m with
        | none => rfl
        | some x => cases x <;> rfl
      · intro m v hv piv ms hpiv hmeter c mv ev dv hflat hmv hev hdv
        injection hpiv with hpiv0
        injection hmeter with hms0
        subst hpiv0
        subst hms0
        subst hout
        have hvsome : ∀ {w : Option ℚ},
            lookupVal (ms0.map (fun p => (p.1, some p.2))) m = some w → w.isSome := by
          intro w hw
          obtain ⟨p, _, heqp⟩ := List.mem_map.mp (lookupVal_value_mem hw)
          injection heqp with h1 h2
          rw [← h2]
          rfl
        have hmvs : mv.isSome := hvsome hmv
        have hevs : ev.isSome :=
          resampleMonthSum_isSome _ _ (lookupVal_value_mem hev)
        have hdvs : dv.isSome := demandCostSum_isSome _ _ (lookupVal_value_mem hdv)
        have h1 := seriesAdd_lookup hmv hev
        have h2 := seriesAdd_lookup h1 hdv
        have h3 := seriesAdd_mem hv
        rw [h2, hflat] at h3
        rw [h3]
        obtain ⟨mvv, hmvv⟩ := Option.isSome_iff_exists.mp hmvs
        obtain ⟨evv, hevv⟩ := Option.isSome_iff_exists.mp hevs
        obtain ⟨dvv, hdvv⟩ := Option.isSome_iff_exists.mp hdvs
        subst hmvv
        subst hevv
        subst hdvv
        rfl

unseal Rat.add Rat.mul Rat.inv Rat.sub in
/-- Witness for the amended C3 at a concrete input: with a defined flat-demand rate
the January total is defined; the flat-propagation conjunct applies at the
counterexample schedule, giving an undefined January total there. -/
theorem total_missing_data_amended_witness :
    ((24216 : Nat), (none : Option ℚ)) ∈ [((24216 : Nat), (none : Option ℚ))] ∧
    (∀ p ∈ energyMonthlyOfTotal [⟨true, 1, 0, 0, 2⟩] (1/4) [(T0, (4 : ℚ))], p.2.isSome) ∧
    ((none : Option ℚ) = none) := by
  have h := total_missing_data_amended ⟨[⟨true, 1, 0, 0, 2⟩], [], [], "$/day", 10⟩
    (1/4) [(T0, 4)] [(24216, none)] (by decide)
  refine ⟨List.mem_singleton.mpr rfl, h.1, ?_⟩
  exact h.2.2.1 24216 none (List.mem_singleton.mpr rfl) (by decide)

unseal Rat.add Rat.mul Rat.inv Rat.sub in
/-- C4 is falsified as stated: on a weekday January load with 10 kW at hour 0 and
2 kW at hour 1, against one demand tier whose rate is 1 at hour 0 and 6 at hour 1,
the unique joined sample achieving the maximum cost 12 is (quantity 2, rate 6), yet
the monthly row reports quantity 10 — `resample("M").max()` reduces each pivoted
column independently, so the reported quantity, rate and cost are separate
column-wise maxima, not the values of one sample. -/
theorem demand_monthly_reduction_counterexample :
    calculate_demand_charges [⟨true, 1, 0, 0, 1⟩, ⟨true, 1, 1, 0, 6⟩]
      [(T0, 10), (T0 + 60, 2)] = .ok [(some 0, [⟨24216, some 10, some 6, some 12⟩])] ∧
    demandRows [⟨true, 1, 0, 0, 1⟩, ⟨true, 1, 1, 0, 6⟩] [(T0, 10), (T0 + 60, 2)] =
      [⟨T0, some 10, some 1, some 0, some 10⟩,
       ⟨T0 + 60, some 2, some 6, some 0, some 12⟩] ∧
    ¬(some (10 : ℚ) = some (2 : ℚ)) := by
  refine ⟨by decide, by decide, by decide⟩

theorem hasDupPivotKeys_false_nodup (rows : List DRow)
    (h : hasDupPivotKeys rows = false) :
    (rows.map (fun r => (r.ts, r.schedule_id))).Nodup := by
  have hlen : (rows.map (fun r => (r.ts, r.schedule_id))).dedup.length =
      (rows.map (fun r => (r.ts, r.schedule_id))).length := by
    simpa [hasDupPivotKeys] using h
  have heq := (List.dedup_sublist
    (rows.map (fun r => (r.ts, r.schedule_id)))).eq_of_length hlen
  rw [← heq]
  exact List.nodup_dedup _

theorem pivot_cell_vals_mem (rows : List DRow) (sid : Option Nat) (m : Nat)
    (f : DRow → Option ℚ)
    (hnod : (rows.map (fun r => (r.ts, r.schedule_id))).Nodup) (x : ℚ) :
    x ∈ ((pivotSeries rows sid f).filter
        (fun p => monthKey p.1 == m)).filterMap Prod.snd ↔
    x ∈ (rows.filter
        (fun r => r.schedule_id == sid && monthKey r.ts == m)).filterMap f := by
  constructor
  · intro hx
    obtain ⟨p, hp, hpx⟩ := List.mem_filterMap.mp hx
    obtain ⟨hps, hpm⟩ := List.mem_filter.mp hp
    obtain ⟨t, ht, heq⟩ := List.mem_map.mp hps
    subst heq
    cases hfind : rows.find? (fun r => r.ts == t && r.schedule_id == sid) with
    | none => rw [hfind] at hpx; cases hpx
    | some r =>
      rw [hfind] at hpx
      have hr : r ∈ rows := List.mem_of_find?_eq_some hfind
      have hpred := List.find?_some hfind
      obtain ⟨hts, hsid⟩ := Bool.and_eq_true_iff.mp hpred
      refine List.mem_filterMap.mpr ⟨r, List.mem_filter.mpr ⟨hr, ?_⟩, hpx⟩
      rw [Bool.and_eq_true_iff]
      refine ⟨hsid, ?_⟩
      rw [beq_iff_eq.mp hts]
      exact hpm
  · intro hx
    obtain ⟨r, hr, hrx⟩ := List.mem_filterMap.mp hx
    obtain ⟨hrin, hrpred⟩ := List.mem_filter.mp hr
    obtain ⟨hsid, hmon⟩ := Bool.and_eq_true_iff.mp hrpred
    have htmem : r.ts ∈ pivotIndex rows :=
      List.mem_dedup.mpr (List.mem_map_of_mem DRow.ts hrin)
    have hpredr : (fun q : DRow => q.ts == r.ts && q.schedule_id == sid) r = true := by
      rw [Bool.and_eq_true_iff]
      exact ⟨beq_self_eq_true _, hsid⟩
    have hfindsome : (rows.find?
        (fun q => q.ts == r.ts && q.schedule_id == sid)).isSome :=
      List.find?_isSome.mpr ⟨r, hrin, hpredr⟩
    cases hfind : rows.find? (fun q => q.ts == r.ts && q.schedule_id == sid) with
    | none => rw [hfind] at hfindsome; cases hfindsome
    | some r2 =>
      have hr2 : r2 ∈ rows := List.mem_of_find?_eq_some hfind
      have hpred2 := List.find?_some hfind
      obtain ⟨hts2, hsid2⟩ := Bool.and_eq_true_iff.mp hpred2
      have hkey : (fun r : DRow => (r.ts, r.schedule_id)) r2 =
          (fun r : DRow => (r.ts, r.schedule_id)) r := by
        simp only []
        rw [beq_iff_eq.mp hts2, beq_iff_eq.mp hsid2, beq_iff_eq.mp hsid]
      have hr2r : r2 = r := List.inj_on_of_nodup_map hnod hr2 hrin hkey
      have hfindr : rows.find? (fun q => q.ts == r.ts && q.schedule_id == sid) =
          some r := by rw [hfind, hr2r]
      refine List.mem_filterMap.mpr ⟨(r.ts, f r), ?_, hrx⟩
      refine List.mem_filter.mpr ⟨?_, hmon⟩
      refine List.mem_map.mpr ⟨r.ts, htmem, ?_⟩
      rw [hfindr]

theorem maxSpec_congr {A B : List ℚ} (h : ∀ x, x ∈ A ↔ x ∈ B) {v : Option ℚ}
    (hA : maxSpec A v) : maxSpec B v := by
  obtain ⟨h1, h2, h3⟩ := hA
  refine ⟨?_, ?_, ?_⟩
  · intro hv
    rw [List.eq_nil_iff_forall_not_mem]
    intro x hx
    have := (h x).mpr hx
    rw [h1 hv] at this
    cases this
  · intro x hx
    exact h2 x ((h x).mpr hx)
  · intro mm hmm
    exact (h mm).mp (h3 mm hmm)

/-- C4 amended: for every tier and month in the output of `calculate_demand_charges`,
each of the three reported monthly values — quantity, rate and cost — is
independently the `skipna` maximum of its own column over that tier's joined rows of
the month (independent column-wise maxima; when the tier's rate varies within the
month these maxima need not come from a single sample, see the counterexample). -/
theorem demand_monthly_reduction_amended (sched : List DemandRow)
    (load : List (Ts × ℚ)) (out : List (Option Nat × List TierMonth))
    (h : calculate_demand_charges sched load = .ok out) :
    ∀ tier ∈ out, ∀ row ∈ tier.2,
      ∀ (f : DRow → Option ℚ) (v : Option ℚ),
        (f, v) ∈ [(DRow.kW, row.kW), (DRow.kW_rate, row.kW_rate),
          (DRow.cost, row.cost)] →
        maxSpec (((demandRows sched load).filter
          (fun r => r.schedule_id == tier.1 && monthKey r.ts == row.month)).filterMap f)
          v := by
  rw [calculate_demand_charges] at h
  cases hdup : hasDupPivotKeys (demandRows sched load) with
  | true => rw [hdup] at h; simp at h
  | false =>
    have hnod := hasDupPivotKeys_false_nodup _ hdup
    rw [hdup] at h
    simp only [Bool.false_eq_true, if_false] at h
    have hout := Except.ok.inj h
    subst hout
    intro tier htier row hrow f v hfv
    obtain ⟨sid, _, heqt⟩ := List.mem_map.mp htier
    subst heqt
    obtain ⟨m, _, heqr⟩ := List.mem_map.mp hrow
    subst heqr
    rcases List.mem_cons.mp hfv with heq | hfv1
    · injection heq with hf hv
      subst hf
      subst hv
      exact maxSpec_congr
        (fun x => pivot_cell_vals_mem (demandRows sched load) sid m DRow.kW hnod x)
        (listMax?_spec _)
    rcases List.mem_cons.mp hfv1 with heq | hfv2
    · injection heq with hf hv
      subst hf
      subst hv
      exact maxSpec_congr
        (fun x => pivot_cell_vals_mem (demandRows sched load) sid m DRow.kW_rate hnod x)
        (listMax?_spec _)
    rcases List.mem_cons.mp hfv2 with heq | hfv3
    · injection heq with hf hv
      subst hf
      subst hv
      exact maxSpec_congr
        (fun x => pivot_cell_vals_mem (demandRows sched load) sid m DRow.cost hnod x)
        (listMax?_spec _)
    cases hfv3

unseal Rat.add Rat.mul Rat.inv Rat.sub in
/-- Witness for the amended C4 at a concrete input: the reported January quantity of
the single tier is the maximum quantity 10 of that tier's column. -/
theorem demand_monthly_reduction_amended_witness :
    maxSpec (((demandRows [⟨true, 1, 0, 0, 1⟩, ⟨true, 1, 1, 0, 6⟩]
        [(T0, 10), (T0 + 60, 2)]).filter
      (fun r => r.schedule_id == ((some 0, [(⟨24216, some 10, some 6, some 12⟩ : TierMonth)]) :
          Option Nat × List TierMonth).1 &&
        monthKey r.ts == (⟨24216, some 10, some 6, some 12⟩ : TierMonth).month)).filterMap
      DRow.kW) (some 10) := by
  have h := demand_monthly_reduction_amended [⟨true, 1, 0, 0, 1⟩, ⟨true, 1, 1, 0, 6⟩]
    [(T0, 10), (T0 + 60, 2)] [(some 0, [⟨24216, some 10, some 6, some 12⟩])] (by decide)
  exact h (some 0, [⟨24216, some 10, some 6, some 12⟩]) (by decide)
    ⟨24216, some 10, some 6, some 12⟩ (by decide) DRow.kW (some 10)
    (List.mem_cons_self _ _)

theorem getLast?_or_append {α : Type} (L1 L2 : List α) :
    (L1 ++ L2).getLast? = Option.or L2.getLast? L1.getLast? := by
  cases L2 with
  | nil => rw [List.append_nil]; rfl
  | cons a t =>
    rw [List.getLast?_append_cons]
    obtain ⟨y, hy⟩ := Option.isSome_iff_exists.mp
      (List.getLast?_isSome.mpr (List.cons_ne_nil a t))
    rw [hy]
    rfl

theorem ffill_range_map (g : Nat → Option ℚ) (w : Nat) :
    ∀ (n s : Nat) (prev : Option ℚ),
    ffillAux prev ((List.range' s n).map (fun b => (b * w, g b))) =
      (List.range' s n).map (fun b => (b * w,
        Option.or ((List.range' s (b + 1 - s)).filterMap g).getLast? prev)) := by
  intro n
  induction n with
  | zero => intro s prev; rfl
  | succ n ih =>
    intro s prev
    rw [List.range'_succ, List.map_cons, List.map_cons]
    have hone : s + 1 - s = 1 := by omega
    cases hg : g s with
    | some x =>
      have hstep : ffillAux prev ((s * w, some x) ::
          (List.range' (s + 1) n).map (fun b => (b * w, g b))) =
          (s * w, some x) ::
            ffillAux (some x) ((List.range' (s + 1) n).map (fun b => (b * w, g b))) := rfl
      rw [hstep, ih (s + 1) (some x)]
      congr 1
      · congr 1
        rw [hone, List.range'_one, List.filterMap_cons, hg]
        rfl
      · apply List.map_congr_left
        intro b hb
        have hbs : s + 1 ≤ b := (List.mem_range'_1.mp hb).1
        have hsplit : List.range' s (b + 1 - s) =
            s :: List.range' (s + 1) (b + 1 - (s + 1)) := by
          have h2 : b + 1 - s = (b + 1 - (s + 1)) + 1 := by omega
          rw [h2, List.range'_succ]
        rw [hsplit, List.filterMap_cons, hg]
        congr 1
        show ((List.range' (s + 1) (b + 1 - (s + 1))).filterMap g).getLast?.or (some x) =
          (x :: (List.range' (s + 1) (b + 1 - (s + 1))).filterMap g).getLast?.or prev
        rw [show (x :: (List.range' (s + 1) (b + 1 - (s + 1))).filterMap g) =
          [x] ++ (List.range' (s + 1) (b + 1 - (s + 1))).filterMap g from rfl,
          getLast?_or_append]
        cases ((List.range' (s + 1) (b + 1 - (s + 1))).filterMap g).getLast? <;> rfl
    | none =>
      have hstep : ffillAux prev ((s * w, (none : Option ℚ)) ::
          (List.range' (s + 1) n).map (fun b => (b * w, g b))) =
          (s * w, prev) ::
            ffillAux prev ((List.range' (s + 1) n).map (fun b => (b * w, g b))) := rfl
      rw [hstep, ih (s + 1) prev]
      congr 1
      · congr 1
        rw [hone, List.range'_one, List.filterMap_cons, hg]
        rfl
      · apply List.map_congr_left
        intro b hb
        have hbs : s + 1 ≤ b := (List.mem_range'_1.mp hb).1
        have hsplit : List.range' s (b + 1 - s) =
            s :: List.range' (s + 1) (b + 1 - (s + 1)) := by
          have h2 : b + 1 - s = (b + 1 - (s + 1)) + 1 := by omega
          rw [h2, List.range'_succ]
        rw [hsplit, List.filterMap_cons, hg]

theorem takeWhile_range'_eq (pr : Nat → Bool) (b : Nat)
    (hpr : ∀ x, pr x = true ↔ x ≤ b) :
    ∀ (n s : Nat), s ≤ b → b < s + n →
    (List.range' s n).takeWhile pr = List.range' s (b + 1 - s) := by
  intro n
  induction n with
  | zero => intro s hs hb; exact absurd hs (by omega)
  | succ n ih =>
    intro s hs hb
    rw [List.range'_succ, List.takeWhile_cons, if_pos ((hpr s).mpr hs)]
    by_cases hsb : s + 1 ≤ b
    · rw [ih (s + 1) hsb (by omega)]
      have h2 : b + 1 - s = (b + 1 - (s + 1)) + 1 := by omega
      rw [h2, List.range'_succ]
    · have htw : (List.range' (s + 1) n).takeWhile pr = [] := by
        cases n with
        | zero => rfl
        | succ m =>
          have hf : ¬ pr (s + 1) = true := fun hcon => by
            have := (hpr (s + 1)).mp hcon
            omega
          rw [List.range'_succ, List.takeWhile_cons, if_neg hf]
      rw [htw]
      have h1 : b + 1 - s = 1 := by omega
      rw [h1, List.range'_one]

theorem paddedMeanAt_eq (load : List (Ts × ℚ)) (s n : Nat) (g : Nat → Option ℚ)
    (hmean : resampleMean 15 load = (List.range' s n).map (fun b => (b * 15, g b)))
    (b : Nat) (hs : s ≤ b) (hb : b < s + n) :
    paddedMeanAt load b = ((List.range' s (b + 1 - s)).filterMap g).getLast? := by
  rw [paddedMeanAt, hmean, List.takeWhile_map]
  rw [takeWhile_range'_eq ((fun p : Ts × Option ℚ => decide (p.1 ≤ b * 15)) ∘
      (fun b' => (b' * 15, g b'))) b
    (fun x => by
      simp only [Function.comp_apply, decide_eq_true_eq]
      exact ⟨fun hle => Nat.le_of_mul_le_mul_right hle (by norm_num),
        fun hle => Nat.mul_le_mul_right 15 hle⟩)
    n s hs hb]
  rw [List.filterMap_map]
  rfl

/-- C7: the series that `calculate_demand_charges` joins against the demand table —
`demandResample`, the embedding of line 59's
`resample("15 min").mean().fillna(method="pad").resample("H").max()` — coincides,
for every load series, with the specification's own description of the Peak-Demand
resampling contract: 15-minute means, forward-filled from the nearest earlier
non-empty bucket, reduced to the maximum within each hour of the covered range. -/
theorem demand_resampling_pipeline (load : List (Ts × ℚ)) :
    demandResample load = demandResampleSpec load := by
  obtain ⟨s, n, hR⟩ : ∃ s n, bucketRange 15 (load.map Prod.fst) = List.range' s n := by
    rw [bucketRange]
    cases h1 : (load.map Prod.fst).head? with
    | none => exact ⟨0, 0, rfl⟩
    | some a =>
      cases h2 : (load.map Prod.fst).getLast? with
      | none => exact ⟨0, 0, rfl⟩
      | some c => exact ⟨a / 15, c / 15 - a / 15 + 1, rfl⟩
  have hmean : resampleMean 15 load = (List.range' s n).map
      (fun b => (b * 15, meanQ ((load.filter
        (fun p => p.1 / 15 == b)).map Prod.snd))) := by
    rw [resampleMean, hR]
  set g : Nat → Option ℚ :=
    fun b => meanQ ((load.filter (fun p => p.1 / 15 == b)).map Prod.snd) with hgdef
  have hA : demandResample load =
      (bucketRange 60 ((List.range' s n).map (fun b => b * 15))).map
        (fun h => (h * 60, listMax? (((List.range' s n).filter
          (fun b => b * 15 / 60 == h)).filterMap
          (fun b => ((List.range' s (b + 1 - s)).filterMap g).getLast?)))) := by
    rw [demandResample, hmean, ffill, ffill_range_map g 15 n s none]
    simp only [Option.or_none]
    rw [resampleMaxOpt, List.map_map]
    rw [show (Prod.fst ∘ (fun b => (b * 15,
      ((List.range' s (b + 1 - s)).filterMap g).getLast?))) = (fun b => b * 15)
      from rfl]
    apply List.map_congr_left
    intro h _
    rw [List.filter_map, List.filterMap_map]
    rfl
  have hB : demandResampleSpec load =
      (bucketRange 60 ((List.range' s n).map (fun b => b * 15))).map
        (fun h => (h * 60, listMax? (((List.range' s n).filter
          (fun b => b * 15 / 60 == h)).filterMap
          (fun b => ((List.range' s (b + 1 - s)).filterMap g).getLast?)))) := by
    rw [demandResampleSpec, hmean, List.map_map]
    rw [show (Prod.fst ∘ (fun b => (b * 15, g b))) = (fun b => b * 15) from rfl]
    apply List.map_congr_left
    intro h _
    rw [List.filter_map, List.filterMap_map]
    show (h * 60, listMax? (((List.range' s n).filter
      (fun b => b * 15 / 60 == h)).filterMap
      (fun b => paddedMeanAt load (b * 15 / 15)))) = _
    congr 1
    congr 1
    apply List.filterMap_congr
    intro b hb
    have hbr := List.mem_range'_1.mp (List.mem_filter.mp hb).1
    rw [Nat.mul_div_cancel b (by norm_num : (0 : ℕ) < 15)]
    exact paddedMeanAt_eq load s n g hmean b hbr.1 hbr.2
  rw [hA, hB]

unseal Rat.add Rat.mul Rat.inv Rat.sub in
/-- C9 is falsified as stated: over the same covered span (hour 0 of 2018-01-01) with
constant rate 1, the monthly energy cost of the `calculate_total` energy stream at
interval 0.25 h with power 4 is 4, while at interval 1 h with power 4/4 = 1 it is 1 —
the two differ by a factor of 4 instead of being equal, because the 15-minute series
has four times as many samples over the same span. -/
theorem energy_interval_scaling_counterexample :
    energyMonthlyOfTotal [⟨true, 1, 0, 0, 1⟩] (1/4)
      [(T0, 4), (T0 + 15, 4), (T0 + 30, 4), (T0 + 45, 4)] = [(24216, some 4)] ∧
    energyMonthlyOfTotal [⟨true, 1, 0, 0, 1⟩] 1 [(T0, 1)] = [(24216, some 1)] ∧
    ¬(some (4 : ℚ) = some (1 : ℚ)) := by
  refine ⟨by decide, by decide, by decide⟩

theorem monthKey_add_lt60 (t j : Nat) (ht : t % 60 = 0) (hj : j < 60) :
    monthKey (t + j) = monthKey t := by
  obtain ⟨a, rfl⟩ := Nat.dvd_of_mod_eq_zero ht
  have e1 : ∀ x : Nat, x / 1440 = x / 60 / 24 := fun x => by
    rw [Nat.div_div_eq_div_mul]
  rw [monthKey, monthKey, tsDay, tsDay, e1, e1, Nat.mul_add_div (by norm_num),
    Nat.div_eq_of_lt hj, Nat.mul_div_cancel_left a (by norm_num : (0 : ℕ) < 60),
    Nat.add_zero]

theorem flatMap_pair_const (base : List Ts) (P : ℚ) :
    base.flatMap (fun t => [(t, P), (t + 15, P), (t + 30, P), (t + 45, P)]) =
      (base.flatMap (fun t => [t, t + 15, t + 30, t + 45])).map (fun t => (t, P)) := by
  induction base with
  | nil => rfl
  | cons t tl ih => simp only [List.flatMap_cons, List.map_append, ih]; rfl

theorem head?_flatMap_expand (base : List Ts) :
    (base.flatMap (fun t => [t, t + 15, t + 30, t + 45])).head? = base.head? := by
  cases base with
  | nil => rfl
  | cons t tl => rfl

theorem getLast?_flatMap_expand (base : List Ts) :
    (base.flatMap (fun t => [t, t + 15, t + 30, t + 45])).getLast? =
      base.getLast?.map (fun t => t + 45) := by
  induction base with
  | nil => rfl
  | cons t tl ih =>
    cases tl with
    | nil => rfl
    | cons u ul =>
      have hiter : (u :: ul).flatMap (fun t => [t, t + 15, t + 30, t + 45]) =
          u :: ([u + 15, u + 30, u + 45] ++
            ul.flatMap (fun t => [t, t + 15, t + 30, t + 45])) := by
        rw [List.flatMap_cons]
        rfl
      rw [List.flatMap_cons, hiter, List.getLast?_append_cons, ← hiter, ih,
        List.getLast?_cons_cons]

theorem lt_add45_of_lt_of_mod60 (a b : Nat) (h : a < b) (ha : a % 60 = 0)
    (hb : b % 60 = 0) : a + 45 < b := by
  omega

theorem chain'_expand (base : List Ts) (hsort : List.Chain' (· < ·) base)
    (halign : ∀ t ∈ base, t % 60 = 0) :
    List.Chain' (· < ·) (base.flatMap (fun t => [t, t + 15, t + 30, t + 45])) := by
  induction base with
  | nil => exact List.chain'_nil
  | cons t tl ih =>
    rw [List.flatMap_cons]
    have hgrp : List.Chain' (· < ·) [t, t + 15, t + 30, t + 45] := by
      refine List.chain'_cons.mpr ⟨Nat.lt_add_of_pos_right (by norm_num), ?_⟩
      refine List.chain'_cons.mpr ⟨by
        rw [show t + 30 = t + 15 + 15 from rfl]
        exact Nat.lt_add_of_pos_right (by norm_num), ?_⟩
      refine List.chain'_cons.mpr ⟨by
        rw [show t + 45 = t + 30 + 15 from rfl]
        exact Nat.lt_add_of_pos_right (by norm_num), ?_⟩
      exact List.chain'_singleton _
    refine List.Chain'.append hgrp
      (ih (List.Chain'.tail hsort) (fun w hw => halign w (List.mem_cons_of_mem t hw)))
      ?_
    intro x hx y hy
    rw [Option.mem_def] at hx hy
    rw [show ([t, t + 15, t + 30, t + 45].getLast? : Option Ts) = some (t + 45)
      from rfl] at hx
    injection hx with hx45
    subst hx45
    cases tl with
    | nil => simp at hy
    | cons u ul =>
      rw [head?_flatMap_expand] at hy
      rw [show ((u :: ul).head? : Option Ts) = some u from rfl] at hy
      injection hy with hyu
      subst hyu
      have htu : t < u := (List.chain'_cons.mp hsort).1
      have ht60 := halign t (List.mem_cons_self t (u :: ul))
      have hu60 := halign u (List.mem_cons_of_mem t (List.mem_cons_self u ul))
      exact lt_add45_of_lt_of_mod60 t u htu ht60 hu60

theorem sortBy_eq_self {α : Type} (key : α → Nat) (l : List α)
    (h : l.Pairwise (fun a b => key a < key b)) : sortBy key l = l := by
  induction l with
  | nil => rfl
  | cons x xs ih =>
    have hx := List.pairwise_cons.mp h
    rw [sortBy, ih hx.2]
    cases xs with
    | nil => rfl
    | cons y ys =>
      rw [insertBy, if_neg]
      have := hx.1 y (List.mem_cons_self y ys)
      omega

theorem mergeRightEnergy_const (sched : List EnergyRow) (load : List (Ts × ℚ))
    (rate : ℚ)
    (h : ∀ p ∈ load, (energyMatches sched p.1).map EnergyRow.rate = [rate]) :
    mergeRightEnergy sched load = load.map (fun p => (p.1, p.2, some rate)) := by
  rw [mergeRightEnergy]
  induction load with
  | nil => rfl
  | cons p tl ih =>
    rw [List.flatMap_cons, List.map_cons,
      ih (fun q hq => h q (List.mem_cons_of_mem p hq))]
    have hp := h p (List.mem_cons_self p tl)
    cases hm : energyMatches sched p.1 with
    | nil => rw [hm] at hp; cases hp
    | cons r rs =>
      rw [hm] at hp
      rw [List.map_cons] at hp
      injection hp with h1 h2
      have hrs : rs = [] := List.map_eq_nil_iff.mp h2
      subst hrs
      show ((p.1, p.2, some r.rate) :: []) ++ tl.map (fun p => (p.1, p.2, some rate)) =
        (p.1, p.2, some rate) :: tl.map (fun p => (p.1, p.2, some rate))
      rw [h1]
      rfl

theorem count_expand (base : List Ts) (halign : ∀ t ∈ base, t % 60 = 0) (m : Nat) :
    ((base.flatMap (fun t => [t, t + 15, t + 30, t + 45])).filter
      (fun t => monthKey t == m)).length =
    4 * ((base.filter (fun t => monthKey t == m)).length) := by
  induction base with
  | nil => rfl
  | cons t tl ih =>
    have ht := halign t (List.mem_cons_self t tl)
    have h15 := monthKey_add_lt60 t 15 ht (by norm_num)
    have h30 := monthKey_add_lt60 t 30 ht (by norm_num)
    have h45 := monthKey_add_lt60 t 45 ht (by norm_num)
    rw [List.flatMap_cons, List.filter_append, List.length_append,
      ih (fun u hu => halign u (List.mem_cons_of_mem t hu))]
    by_cases hm : monthKey t = m
    · simp only [List.filter_cons, h15, h30, h45, hm, beq_self_eq_true, if_pos,
        List.filter_nil, List.length_cons, List.length_nil]
      omega
    · have hbeq : (monthKey t == m) = false := by simpa using hm
      simp only [List.filter_cons, h15, h30, h45, hbeq, Bool.false_eq_true, if_false,
        List.filter_nil, List.length_nil]
      omega

theorem monthRange_expand (base : List Ts) (hne : base ≠ [])
    (halign : ∀ t ∈ base, t % 60 = 0) :
    monthRange (base.flatMap (fun t => [t, t + 15, t + 30, t + 45])) =
      monthRange base := by
  obtain ⟨tl, htl⟩ := Option.isSome_iff_exists.mp (List.getLast?_isSome.mpr hne)
  have htl60 := halign tl (List.mem_of_getLast?_eq_some htl)
  cases base with
  | nil => exact absurd rfl hne
  | cons t0 rest =>
    rw [monthRange, monthRange, head?_flatMap_expand, getLast?_flatMap_expand, htl]
    rw [show (t0 :: rest).head? = some t0 from rfl]
    show List.range' (monthKey t0) (monthKey (tl + 45) - monthKey t0 + 1) =
      List.range' (monthKey t0) (monthKey tl - monthKey t0 + 1)
    rw [monthKey_add_lt60 tl 45 htl60 (by norm_num)]

theorem resampleMonthSum_const (ts : List Ts) (c : ℚ) :
    resampleMonthSum (ts.map (fun t => (t, some c))) =
      (monthRange ts).map (fun m =>
        (m, some (((ts.filter (fun t => monthKey t == m)).length : ℕ) • c))) := by
  rw [resampleMonthSum, List.map_map,
    show (Prod.fst ∘ fun t : Ts => (t, some c)) = fun t => t from rfl, List.map_id']
  apply List.map_congr_left
  intro m _
  congr 1
  rw [List.filter_map,
    show ((fun p : Ts × Option ℚ => monthKey p.1 == m) ∘ fun t => (t, some c)) =
      (fun t => monthKey t == m) from rfl,
    List.filterMap_map,
    show ((Prod.snd ∘ fun t : Ts => (t, some c)) : Ts → Option ℚ) =
      some ∘ (fun t => c) from rfl,
    List.filterMap_eq_map, List.map_const', List.sum_replicate]

/-- C9 amended: for a constant energy rate over the covered span, the monthly energy
cost computed by the energy stream of `calculate_total` with sampling interval 0.25 h
and constant power `P` equals FOUR TIMES the cost with interval 1 h and constant
power `P / 4` (kWh per sample scales linearly in the interval, but the 15-minute
series has four samples per hourly sample over the same span, so the monthly totals
differ by the factor 4 rather than being equal). -/
theorem energy_interval_scaling_amended (sched : List EnergyRow) (base : List Ts)
    (P rate : ℚ) (hne : base ≠ [])
    (hsort : List.Chain' (· < ·) base)
    (halign : ∀ t ∈ base, t % 60 = 0)
    (hmatch : ∀ t ∈ base.flatMap (fun t => [t, t + 15, t + 30, t + 45]),
      (energyMatches sched t).map EnergyRow.rate = [rate]) :
    energyMonthlyOfTotal sched (1/4)
        (base.flatMap (fun t => [(t, P), (t + 15, P), (t + 30, P), (t + 45, P)])) =
      (energyMonthlyOfTotal sched 1 (base.map (fun t => (t, P / 4)))).map
        (fun p => (p.1, p.2.map (fun v => 4 * v))) := by
  have hbase60 : ∀ t ∈ base, t % 60 = 0 := halign
  -- the expanded 15-minute stamp list
  have hT15ne : base.flatMap (fun t => [t, t + 15, t + 30, t + 45]) ≠ [] := by
    cases base with
    | nil => exact absurd rfl hne
    | cons t tl => simp [List.flatMap_cons]
  -- both scaled loads are constant-valued over their stamp lists
  have hscale15 : (base.flatMap
        (fun t => [(t, P), (t + 15, P), (t + 30, P), (t + 45, P)])).map
        (fun p => (p.1, p.2 * (1/4))) =
      (base.flatMap (fun t => [t, t + 15, t + 30, t + 45])).map
        (fun t => (t, P * (1/4))) := by
    rw [flatMap_pair_const, List.map_map]
    rfl
  have hscale1 : (base.map (fun t => (t, P / 4))).map (fun p => (p.1, p.2 * 1)) =
      base.map (fun t => (t, P / 4 * 1)) := by
    rw [List.map_map]
    rfl
  -- single-match merge on both
  have hm15 : ∀ p ∈ (base.flatMap (fun t => [t, t + 15, t + 30, t + 45])).map
      (fun t => (t, P * (1/4))), (energyMatches sched p.1).map EnergyRow.rate =
        [rate] := by
    intro p hp
    obtain ⟨t, ht, heq⟩ := List.mem_map.mp hp
    rw [← heq]
    exact hmatch t ht
  have hm1 : ∀ p ∈ base.map (fun t => (t, P / 4 * 1)),
      (energyMatches sched p.1).map EnergyRow.rate = [rate] := by
    intro p hp
    obtain ⟨t, ht, heq⟩ := List.mem_map.mp hp
    rw [← heq]
    refine hmatch t (List.mem_flatMap.mpr ⟨t, ht, ?_⟩)
    exact List.mem_cons_self t _
  -- the two cost series are constant series over the stamp lists
  have hpT15 : List.Pairwise (fun a b : Ts => a < b)
      (base.flatMap (fun t => [t, t + 15, t + 30, t + 45])) :=
    List.chain'_iff_pairwise.mp (chain'_expand base hsort halign)
  have hpbase : List.Pairwise (fun a b : Ts => a < b) base :=
    List.chain'_iff_pairwise.mp hsort
  have hpair15 : List.Pairwise (fun a b : ERow => a.ts < b.ts)
      ((((base.flatMap (fun t => [t, t + 15, t + 30, t + 45])).map
          (fun t => (t, P * (1/4)))).map (fun p => (p.1, p.2, some rate))).map
        (fun r : Ts × ℚ × Option ℚ =>
          (⟨r.1, r.2.1, r.2.2, mulOpt (some r.2.1) r.2.2⟩ : ERow))) := by
    rw [List.pairwise_map, List.pairwise_map, List.pairwise_map]
    exact hpT15
  have hpair1 : List.Pairwise (fun a b : ERow => a.ts < b.ts)
      (((base.map (fun t => (t, P / 4 * 1))).map
        (fun p => (p.1, p.2, some rate))).map
        (fun r : Ts × ℚ × Option ℚ =>
          (⟨r.1, r.2.1, r.2.2, mulOpt (some r.2.1) r.2.2⟩ : ERow))) := by
    rw [List.pairwise_map, List.pairwise_map, List.pairwise_map]
    exact hpbase
  have hcost15 : costColEnergy (calculate_energy_charges sched
      ((base.flatMap (fun t => [(t, P), (t + 15, P), (t + 30, P), (t + 45, P)])).map
        (fun p => (p.1, p.2 * (1/4))))) =
      (base.flatMap (fun t => [t, t + 15, t + 30, t + 45])).map
        (fun t => (t, some (P * (1/4) * rate))) := by
    rw [calculate_energy_charges, hscale15, mergeRightEnergy_const sched _ rate hm15,
      sortBy_eq_self ERow.ts _ hpair15, costColEnergy, List.map_map, List.map_map,
      List.map_map]
    rfl
  have hcost1 : costColEnergy (calculate_energy_charges sched
      ((base.map (fun t => (t, P / 4))).map (fun p => (p.1, p.2 * 1)))) =
      base.map (fun t => (t, some (P / 4 * 1 * rate))) := by
    rw [calculate_energy_charges, hscale1, mergeRightEnergy_const sched _ rate hm1,
      sortBy_eq_self ERow.ts _ hpair1, costColEnergy, List.map_map, List.map_map,
      List.map_map]
    rfl
  rw [energyMonthlyOfTotal, energyMonthlyOfTotal, hcost15, hcost1,
    resampleMonthSum_const, resampleMonthSum_const,
    monthRange_expand base hne halign, List.map_map]
  apply List.map_congr_left
  intro m _
  rw [count_expand base halign m]
  show (m, some ((4 * (List.filter (fun t => monthKey t == m) base).length) •
    (P * (1/4) * rate))) =
    (m, some (4 * ((List.filter (fun t => monthKey t == m) base).length •
      (P / 4 * 1 * rate))))
  congr 2
  rw [nsmul_eq_mul, nsmul_eq_mul]
  push_cast
  ring

unseal Rat.add Rat.mul Rat.inv Rat.sub in
/-- Witness for the amended C9 at a concrete input: one covered hour, power 4 at
15-minute sampling against power 1 at hourly sampling, constant rate 1. -/
theorem energy_interval_scaling_amended_witness :
    energyMonthlyOfTotal [⟨true, 1, 0, 0, 1⟩] (1/4)
        ([T0].flatMap (fun t => [(t, (4 : ℚ)), (t + 15, 4), (t + 30, 4), (t + 45, 4)])) =
      (energyMonthlyOfTotal [⟨true, 1, 0, 0, 1⟩] 1 ([T0].map (fun t => (t, (4 : ℚ) / 4)))).map
        (fun p => (p.1, p.2.map (fun v => 4 * v))) :=
  energy_interval_scaling_amended [⟨true, 1, 0, 0, 1⟩] [T0] 4 1 (by decide)
    (List.chain'_singleton T0) (by decide) (by decide)

end UBC
